import Mathlib

/-!
Verification of the audio feature-extraction pipeline (notebook
`Data_Preparation.ipynb`): per-file feature computation with error
isolation, dataset counting/traversal, batch accumulation, and CSV
export.  Numeric values are modelled as rationals extended with the
IEEE non-finite values (NaN, ±Inf); the external signal-processing
library (librosa/numpy) is an oracle parameter, since the pipeline's
contract concerns only invoking it, catching its raised exceptions and
shaping its outputs.
-/

/-- A scalar cell value: a finite rational, NaN, or a signed infinity
(`inf true` is `+∞`). -/
inductive Val where
  | finite : ℚ → Val
  | nan : Val
  | inf : Bool → Val
deriving DecidableEq, Repr

/-- Whether a value is finite (neither NaN nor ±Inf). -/
def Val.isFinite : Val → Bool
  | .finite _ => true
  | _ => false

/-- The rational carried by a finite value (0 otherwise). -/
def Val.toRat : Val → ℚ
  | .finite q => q
  | _ => 0

/-- Model of `np.mean` on a 1-dimensional value sequence: NaN on an empty input
(numpy emits a RuntimeWarning, not an exception), NaN if any NaN or
both infinities are present, the matching infinity if exactly one sign
of infinity occurs, and the exact arithmetic mean otherwise. -/
def npMean (xs : List Val) : Val :=
  if xs = [] then .nan
  else if xs.contains .nan then .nan
  else if xs.contains (.inf true) && xs.contains (.inf false) then .nan
  else if xs.contains (.inf true) then .inf true
  else if xs.contains (.inf false) then .inf false
  else .finite ((xs.map Val.toRat).sum / xs.length)

/-- The external audio library (librosa + numpy), as an oracle: each
call either returns a frame-value series or raises (`Except.error`).
`load` returns the waveform and its native sample rate; `mfcc` is
called with `n_mfcc = 20`, so its result has exactly 20 coefficient
rows, row `i` being coefficient `i+1`'s time series. -/
structure AudioLib where
  load : String → Except String (List Val × ℕ)
  chroma_stft : List Val → ℕ → Except String (List Val)
  rms : List Val → Except String (List Val)
  spectral_centroid : List Val → ℕ → Except String (List Val)
  spectral_bandwidth : List Val → ℕ → Except String (List Val)
  spectral_rolloff : List Val → ℕ → Except String (List Val)
  zero_crossing_rate : List Val → Except String (List Val)
  mfcc : List Val → ℕ → Except String (ℕ → List Val)

/-- A feature dictionary: keys to scalar values, in insertion order
(Python dicts preserve insertion order). -/
abbrev FeatureDict : Type := List (String × Val)

/-- Body of the `try` block of `extract_features`: load the file, build
the six-descriptor dictionary (evaluated in literal order), then append
`mfcc1..mfcc20`, each the mean of the corresponding coefficient row
(`np.mean(mfccs[i - 1])` for `i in range(1, 21)`).  An exception raised
by any library call propagates. -/
def extract_features_core (lib : AudioLib) (file_path : String) :
    Except String FeatureDict :=
  match lib.load file_path with
  | .error e => .error e
  | .ok (y, sr) =>
  match lib.chroma_stft y sr with
  | .error e => .error e
  | .ok chroma =>
  match lib.rms y with
  | .error e => .error e
  | .ok rmsv =>
  match lib.spectral_centroid y sr with
  | .error e => .error e
  | .ok cent =>
  match lib.spectral_bandwidth y sr with
  | .error e => .error e
  | .ok band =>
  match lib.spectral_rolloff y sr with
  | .error e => .error e
  | .ok roll =>
  match lib.zero_crossing_rate y with
  | .error e => .error e
  | .ok zcr =>
  match lib.mfcc y sr with
  | .error e => .error e
  | .ok mfccs =>
      .ok ([("chroma_stft", npMean chroma),
            ("rms", npMean rmsv),
            ("spectral_centroid", npMean cent),
            ("spectral_bandwidth", npMean band),
            ("rolloff", npMean roll),
            ("zero_crossing_rate", npMean zcr)]
           ++ (List.range 20).map
                (fun i => ("mfcc" ++ toString (i + 1), npMean (mfccs i))))

/-- Full `extract_features`: on success returns the dictionary; on a raised
exception appends one line `Error processing <path>: <e>` to the error
log and returns `None`. -/
def extract_features (lib : AudioLib) (file_path : String)
    (log : List String) : Option FeatureDict × List String :=
  match extract_features_core lib file_path with
  | .ok features => (some features, log)
  | .error e =>
      (none, log ++ ["Error processing " ++ file_path ++ ": " ++ e])

/-- The canonical 26-key feature name list, in the order the source
builds it. -/
def CANONICAL_KEYS : List String :=
  ["chroma_stft", "rms", "spectral_centroid", "spectral_bandwidth",
   "rolloff", "zero_crossing_rate"]
  ++ (List.range 20).map (fun i => "mfcc" ++ toString (i + 1))

/-- A tabular cell: a numeric feature value, a string field, or the
integer label code. -/
inductive Cell where
  | num : Val → Cell
  | str : String → Cell
  | int : ℕ → Cell
deriving DecidableEq, Repr

/-- A table row: ordered key/cell pairs (a Python dict). -/
abbrev Row : Type := List (String × Cell)

/-- The file-system oracle: `os.path.exists` and `os.listdir`. -/
structure FS where
  pathExists : String → Bool
  listdir : String → List String

/-- Model of `os.path.join` for two components (POSIX separator). -/
def pjoin (a b : String) : String := a ++ "/" ++ b

/-- Python's `str.endswith`: the suffix test on the character
sequence. -/
def endswith (s suf : String) : Bool := List.isSuffixOf suf.data s.data

/-- Result dictionary of `count_files_in_dataset`: per-split/per-label
in split mode, per-label in flat mode. -/
inductive FileCounts where
  | structured : List (String × List (String × ℕ)) → FileCounts
  | flat : List (String × ℕ) → FileCounts
deriving DecidableEq, Repr

/-- One cell of the count: the number of `.wav`-suffixed names listed
in the folder if it exists, else 0 (no error raised). -/
def countCell (fs : FS) (folder : String) : ℕ :=
  if fs.pathExists folder then
    ((fs.listdir folder).filter (fun f => endswith f ".wav")).length
  else 0

/-- Model of `count_files_in_dataset(base_dir, splits, labels)`.  Python's
`if splits:` is truthy exactly for a non-`None`, non-empty list, hence
the `some (s :: ss)` pattern.  The labels dict is modelled as an
ordered association list (its iteration order is key-insertion
order). -/
def count_files_in_dataset (fs : FS) (base_dir : String)
    (splits : Option (List String)) (labels : List (String × ℕ)) :
    FileCounts × ℕ :=
  match splits with
  | some (s :: ss) =>
      let file_counts := (s :: ss).map (fun split =>
        (split, labels.map (fun lab =>
          (lab.1, countCell fs (pjoin (pjoin base_dir split) lab.1)))))
      (FileCounts.structured file_counts,
       (file_counts.map (fun sc => (sc.2.map Prod.snd).sum)).sum)
  | _ =>
      let file_counts := labels.map (fun lab =>
        (lab.1, countCell fs (pjoin base_dir lab.1)))
      (FileCounts.flat file_counts, (file_counts.map Prod.snd).sum)

/-- A dataset entry as enumerated by the traversal loops: path, bare
file name, label with its code, and the split (absent in flat mode). -/
structure DatasetEntry where
  file_path : String
  filename : String
  label : String
  labelCode : ℕ
  split : Option String
deriving DecidableEq, Repr

/-- The entry the split-mode inner loop builds for one file name. -/
def fileEntryNorm (folder split label : String) (code : ℕ)
    (file : String) : DatasetEntry :=
  ⟨pjoin folder file, file, label, code, some split⟩

/-- The entry the flat-mode inner loop builds for one file name. -/
def fileEntryWild (folder label : String) (code : ℕ)
    (file : String) : DatasetEntry :=
  ⟨pjoin folder file, file, label, code, none⟩

/-- The entries of one split/label cell: the `.wav`-suffixed names of
the directory if it exists (in listing order), nothing otherwise. -/
def labEntriesNorm (fs : FS) (base_dir split : String)
    (lab : String × ℕ) : List DatasetEntry :=
  if fs.pathExists (pjoin (pjoin base_dir split) lab.1) then
    ((fs.listdir (pjoin (pjoin base_dir split) lab.1)).filter
        (fun f => endswith f ".wav")).map
      (fileEntryNorm (pjoin (pjoin base_dir split) lab.1) split lab.1 lab.2)
  else []

/-- The entries of one split, across the label set in order. -/
def splitEntries (fs : FS) (base_dir : String)
    (labels : List (String × ℕ)) (split : String) : List DatasetEntry :=
  labels.flatMap (labEntriesNorm fs base_dir split)

/-- The split-mode traversal (the loop nest of
`process_audio_files_for_norm`): for each split, for each label, the
`.wav`-suffixed names of the existing directories, in listing order. -/
def walk_split (fs : FS) (base_dir : String) (splits : List String)
    (labels : List (String × ℕ)) : List DatasetEntry :=
  splits.flatMap (splitEntries fs base_dir labels)

/-- The entries of one label directory in flat mode. -/
def labEntriesWild (fs : FS) (base_dir : String)
    (lab : String × ℕ) : List DatasetEntry :=
  if fs.pathExists (pjoin base_dir lab.1) then
    ((fs.listdir (pjoin base_dir lab.1)).filter
        (fun f => endswith f ".wav")).map
      (fileEntryWild (pjoin base_dir lab.1) lab.1 lab.2)
  else []

/-- The flat-mode traversal (the loop nest of
`process_audio_files_release_in_wild`). -/
def walk_flat (fs : FS) (base_dir : String)
    (labels : List (String × ℕ)) : List DatasetEntry :=
  labels.flatMap (labEntriesWild fs base_dir)

/-- Mutable state of one batch run: the accumulated `all_features`
list, the contents of `error_log.txt`, and the progress-bar count. -/
structure RunState where
  rows : List Row
  log : List String
  progress : ℕ
deriving DecidableEq, Repr

/-- Building a for-norm row: the feature dict, then the mutations
`features["filename"]`, `features["split"]`, `features["label"]`,
`features["LABEL"]` (each a fresh key, appended in insertion order). -/
def mkRowForNorm (features : FeatureDict) (file split label : String)
    (code : ℕ) : Row :=
  features.map (fun kv => (kv.1, Cell.num kv.2))
  ++ [("filename", Cell.str file), ("split", Cell.str split),
      ("label", Cell.str label), ("LABEL", Cell.int code)]

/-- Building a release-in-the-wild row: same, but no `split` key. -/
def mkRowWild (features : FeatureDict) (file label : String)
    (code : ℕ) : Row :=
  features.map (fun kv => (kv.1, Cell.num kv.2))
  ++ [("filename", Cell.str file), ("label", Cell.str label),
      ("LABEL", Cell.int code)]

/-- The body of the innermost loop of `process_audio_files_for_norm`
for one directory entry `file`: skip unless the name ends in `.wav`;
otherwise run `extract_features` (which may append one log line), and
if its result is truthy append one row; the progress bar advances in
either case. -/
def process_file_for_norm (lib : AudioLib) (folder split label : String)
    (code : ℕ) (st : RunState) (file : String) : RunState :=
  if endswith file ".wav" then
    match extract_features lib (pjoin folder file) st.log with
    | (some features, log2) =>
        if features ≠ [] then
          { rows := st.rows ++ [mkRowForNorm features file split label code],
            log := log2, progress := st.progress + 1 }
        else { st with log := log2, progress := st.progress + 1 }
    | (none, log2) => { st with log := log2, progress := st.progress + 1 }
  else st

/-- Innermost loop body of `process_audio_files_release_in_wild`. -/
def process_file_wild (lib : AudioLib) (folder label : String)
    (code : ℕ) (st : RunState) (file : String) : RunState :=
  if endswith file ".wav" then
    match extract_features lib (pjoin folder file) st.log with
    | (some features, log2) =>
        if features ≠ [] then
          { rows := st.rows ++ [mkRowWild features file label code],
            log := log2, progress := st.progress + 1 }
        else { st with log := log2, progress := st.progress + 1 }
    | (none, log2) => { st with log := log2, progress := st.progress + 1 }
  else st

/-- Model of `process_audio_files_for_norm(base_dir)`: precompute `total_files`
(note: `len(os.listdir(...))` with NO `.wav` filter, over existing
split/label directories), then the split × label × directory-listing
loop nest.  Returns the final run state together with the progress-bar
total. -/
def process_audio_files_for_norm (lib : AudioLib) (fs : FS)
    (base_dir : String) (splits : List String)
    (labels : List (String × ℕ)) (log0 : List String) : RunState × ℕ :=
  let total_files :=
    ((splits.flatMap (fun split =>
        labels.filterMap (fun lab =>
          if fs.pathExists (pjoin (pjoin base_dir split) lab.1) then
            some (fs.listdir (pjoin (pjoin base_dir split) lab.1)).length
          else none)))).sum
  let final := splits.foldl (fun st split =>
    labels.foldl (fun st lab =>
      let folder := pjoin (pjoin base_dir split) lab.1
      if fs.pathExists folder then
        (fs.listdir folder).foldl
          (process_file_for_norm lib folder split lab.1 lab.2) st
      else st) st) ⟨[], log0, 0⟩
  (final, total_files)

/-- Model of `process_audio_files_release_in_wild(base_dir)`: same shape with
the label loop only (and the same unfiltered `total_files` count). -/
def process_audio_files_release_in_wild (lib : AudioLib) (fs : FS)
    (base_dir : String) (labels : List (String × ℕ))
    (log0 : List String) : RunState × ℕ :=
  let total_files :=
    (labels.filterMap (fun lab =>
      if fs.pathExists (pjoin base_dir lab.1) then
        some (fs.listdir (pjoin base_dir lab.1)).length
      else none)).sum
  let final := labels.foldl (fun st lab =>
    let folder := pjoin base_dir lab.1
    if fs.pathExists folder then
      (fs.listdir folder).foldl
        (process_file_wild lib folder lab.1 lab.2) st
    else st) ⟨[], log0, 0⟩
  (final, total_files)

/-- The row a dataset entry contributes when its extraction succeeds
(none on failure). -/
def entry_row (lib : AudioLib) (e : DatasetEntry) : Option Row :=
  match extract_features_core lib e.file_path with
  | .ok features =>
      if features ≠ [] then
        some (match e.split with
          | some s => mkRowForNorm features e.filename s e.label e.labelCode
          | none => mkRowWild features e.filename e.label e.labelCode)
      else none
  | .error _ => none

/-- The failure-log lines a dataset entry contributes (one on failure,
none on success). -/
def entry_failure (lib : AudioLib) (e : DatasetEntry) : List String :=
  match extract_features_core lib e.file_path with
  | .ok _ => []
  | .error er => ["Error processing " ++ e.file_path ++ ": " ++ er]

/-- Column inference of `pd.DataFrame(list_of_dicts)`: the union of row
keys in order of first appearance. -/
def df_columns (rows : List Row) : List String :=
  rows.foldl (fun cols row =>
    cols ++ ((row.map Prod.fst).filter (fun k => !(cols.contains k)))) []

/-- Serialization of one scalar (pandas `to_csv` defaults): NaN is
written as the empty field, floats otherwise at full precision
(exact in this rational model). -/
def renderVal : Val → String
  | .finite q => toString q
  | .nan => ""
  | .inf true => "inf"
  | .inf false => "-inf"

/-- Serialization of one cell; a key missing from a row is an empty
field. -/
def renderCell : Option Cell → String
  | none => ""
  | some (.num v) => renderVal v
  | some (.str s) => s
  | some (.int n) => toString n

/-- Model of `df.to_csv(path, index=False)` as a string: a header line naming
the columns, then one line per row with the cells in column order,
each line `\n`-terminated. -/
def df_to_csv (rows : List Row) : String :=
  let cols := df_columns rows
  let header := String.intercalate "," cols
  let body := rows.map (fun row =>
    String.intercalate "," (cols.map (fun c => renderCell (row.lookup c))))
  String.intercalate "\n" (header :: body) ++ "\n"

/-- A flat file store: path/content pairs; writing replaces any
previous content at that path. -/
def writeFile (files : List (String × String)) (path content : String) :
    List (String × String) :=
  (files.filter (fun f => !(f.1 == path))) ++ [(path, content)]

/-- Model of `df.to_csv(csv_path, index=False)` as an effect on the file
store. -/
def to_csv_write (files : List (String × String)) (rows : List Row)
    (path : String) : List (String × String) :=
  writeFile files path (df_to_csv rows)

/-- Reading a path back from the file store. -/
def readFile (files : List (String × String)) (path : String) :
    Option String :=
  files.lookup path

/-- A concrete library whose every call succeeds with the constant
frame series `[1]` — a stand-in for a decodable, well-behaved audio
file. -/
def constLib : AudioLib where
  load := fun _ => .ok ([Val.finite 1], 16000)
  chroma_stft := fun _ _ => .ok [Val.finite 1]
  rms := fun _ => .ok [Val.finite 1]
  spectral_centroid := fun _ _ => .ok [Val.finite 1]
  spectral_bandwidth := fun _ _ => .ok [Val.finite 1]
  spectral_rolloff := fun _ _ => .ok [Val.finite 1]
  zero_crossing_rate := fun _ => .ok [Val.finite 1]
  mfcc := fun _ _ => .ok (fun _ => [Val.finite 1])

/-- The dictionary `extract_features_core constLib` produces. -/
def constDict : FeatureDict :=
  [("chroma_stft", npMean [Val.finite 1]),
   ("rms", npMean [Val.finite 1]),
   ("spectral_centroid", npMean [Val.finite 1]),
   ("spectral_bandwidth", npMean [Val.finite 1]),
   ("rolloff", npMean [Val.finite 1]),
   ("zero_crossing_rate", npMean [Val.finite 1])]
  ++ (List.range 20).map
       (fun i => ("mfcc" ++ toString (i + 1), npMean [Val.finite 1]))

/-- A library on which every load raises — every file is corrupt. -/
def failLib : AudioLib where
  load := fun _ => .error "corrupt"
  chroma_stft := fun _ _ => .ok []
  rms := fun _ => .ok []
  spectral_centroid := fun _ _ => .ok []
  spectral_bandwidth := fun _ _ => .ok []
  spectral_rolloff := fun _ _ => .ok []
  zero_crossing_rate := fun _ => .ok []
  mfcc := fun _ _ => .ok (fun _ => [])

/-- The library behaviour the notebook run itself records for a
zero-length waveform: `load` succeeds with an empty buffer, and the
frame-based descriptors emit warnings (`n_fft=2048 is too large for
input signal of length=0`) and return degenerate (empty) frame series
instead of raising, so `np.mean` yields NaN with only a
RuntimeWarning. -/
def zeroLenLib : AudioLib where
  load := fun _ => .ok ([], 16000)
  chroma_stft := fun _ _ => .ok []
  rms := fun _ => .ok []
  spectral_centroid := fun _ _ => .ok []
  spectral_bandwidth := fun _ _ => .ok []
  spectral_rolloff := fun _ _ => .ok []
  zero_crossing_rate := fun _ => .ok []
  mfcc := fun _ _ => .ok (fun _ => [])

/-- A file system with one existing directory `b/training/fake`
holding a single non-audio file. -/
def fsTxt : FS where
  pathExists := fun p => p == "b/training/fake"
  listdir := fun p => if p == "b/training/fake" then ["x.txt"] else []

/-- A file system with one existing directory `b/training/fake`
holding a single `.wav` file. -/
def fsWav : FS where
  pathExists := fun p => p == "b/training/fake"
  listdir := fun p => if p == "b/training/fake" then ["a.wav"] else []

/-- A flat-layout file system: `b/fake` holding a single `.wav`
file. -/
def fsFlat : FS where
  pathExists := fun p => p == "b/fake"
  listdir := fun p => if p == "b/fake" then ["a.wav"] else []

/-- A library frame-series result that is a non-empty, all-finite
value series — what a well-behaved descriptor yields on valid
non-empty audio. -/
def SeriesGood (r : Except String (List Val)) : Prop :=
  ∃ xs, r = .ok xs ∧ xs ≠ [] ∧ ∀ v ∈ xs, v.isFinite = true

/-- Valid non-empty audio input: the file loads with a non-empty
waveform, and every descriptor the pipeline invokes returns a
non-empty all-finite frame series. -/
def ValidInput (lib : AudioLib) (fp : String) : Prop :=
  ∃ y sr, lib.load fp = .ok (y, sr) ∧ y ≠ [] ∧
    SeriesGood (lib.chroma_stft y sr) ∧ SeriesGood (lib.rms y) ∧
    SeriesGood (lib.spectral_centroid y sr) ∧
    SeriesGood (lib.spectral_bandwidth y sr) ∧
    SeriesGood (lib.spectral_rolloff y sr) ∧
    SeriesGood (lib.zero_crossing_rate y) ∧
    ∃ mf, lib.mfcc y sr = .ok mf ∧
      ∀ i, i < 20 → mf i ≠ [] ∧ ∀ v ∈ mf i, v.isFinite = true

/-- The descriptor calls on buffer `y` at rate `sr` all return values
(possibly degenerate) rather than raising. -/
def NoRaise (lib : AudioLib) (y : List Val) (sr : ℕ) : Prop :=
  (∃ c, lib.chroma_stft y sr = .ok c) ∧ (∃ r, lib.rms y = .ok r) ∧
  (∃ sc, lib.spectral_centroid y sr = .ok sc) ∧
  (∃ sb, lib.spectral_bandwidth y sr = .ok sb) ∧
  (∃ ro, lib.spectral_rolloff y sr = .ok ro) ∧
  (∃ z, lib.zero_crossing_rate y = .ok z) ∧
  (∃ mf, lib.mfcc y sr = .ok mf)

theorem extract_features_core_keys (lib : AudioLib) (fp : String)
    (d : FeatureDict) (h : extract_features_core lib fp = .ok d) :
    d.map Prod.fst = CANONICAL_KEYS := by
  unfold extract_features_core at h
  repeat' split at h
  all_goals cases h
  simp [CANONICAL_KEYS, List.map_append, List.map_map]

/-- Characterization of a successful `extract_features_core` run: every
library call returned `ok` and the dictionary is the literal six
descriptors followed by `mfcc1..mfcc20`. -/
theorem extract_features_core_ok (lib : AudioLib) (fp : String)
    (d : FeatureDict) (h : extract_features_core lib fp = .ok d) :
    ∃ y sr chroma rmsv cent band roll zcr mfccs,
      lib.load fp = .ok (y, sr) ∧
      lib.chroma_stft y sr = .ok chroma ∧
      lib.rms y = .ok rmsv ∧
      lib.spectral_centroid y sr = .ok cent ∧
      lib.spectral_bandwidth y sr = .ok band ∧
      lib.spectral_rolloff y sr = .ok roll ∧
      lib.zero_crossing_rate y = .ok zcr ∧
      lib.mfcc y sr = .ok mfccs ∧
      d = [("chroma_stft", npMean chroma),
           ("rms", npMean rmsv),
           ("spectral_centroid", npMean cent),
           ("spectral_bandwidth", npMean band),
           ("rolloff", npMean roll),
           ("zero_crossing_rate", npMean zcr)]
          ++ (List.range 20).map
               (fun i => ("mfcc" ++ toString (i + 1), npMean (mfccs i))) := by
  unfold extract_features_core at h
  repeat' split at h
  all_goals cases h
  exact ⟨_, _, _, _, _, _, _, _, _, by assumption, by assumption, by assumption,
    by assumption, by assumption, by assumption, by assumption, by assumption, rfl⟩

/-- A successful extraction result is never the empty dictionary (it
always has the 26 canonical keys), so Python's `if features:`
truthiness test is genuinely equivalent to `features is not None`
here. -/
theorem extract_features_core_ok_ne_nil (lib : AudioLib) (fp : String)
    (d : FeatureDict) (h : extract_features_core lib fp = .ok d) :
    d ≠ [] := by
  obtain ⟨_, _, _, _, _, _, _, _, _, _, _, _, _, _, _, _, _, hd⟩ :=
    extract_features_core_ok lib fp d h
  subst hd; simp

theorem process_file_for_norm_step (lib : AudioLib)
    (folder split label : String) (code : ℕ) (st : RunState)
    (file : String) :
    process_file_for_norm lib folder split label code st file =
      if endswith file ".wav" then
        { rows := st.rows ++
            (entry_row lib (fileEntryNorm folder split label code file)).toList,
          log := st.log ++
            entry_failure lib (fileEntryNorm folder split label code file),
          progress := st.progress + 1 }
      else st := by
  unfold process_file_for_norm extract_features entry_row entry_failure
    fileEntryNorm
  by_cases hw : endswith file ".wav"
  · simp only [hw, if_true]
    cases hc : extract_features_core lib (pjoin folder file) with
    | ok d =>
        have hne : d ≠ [] := extract_features_core_ok_ne_nil _ _ _ hc
        simp [hne]
    | error e => simp
  · simp [hw]

theorem process_file_wild_step (lib : AudioLib)
    (folder label : String) (code : ℕ) (st : RunState)
    (file : String) :
    process_file_wild lib folder label code st file =
      if endswith file ".wav" then
        { rows := st.rows ++
            (entry_row lib (fileEntryWild folder label code file)).toList,
          log := st.log ++
            entry_failure lib (fileEntryWild folder label code file),
          progress := st.progress + 1 }
      else st := by
  unfold process_file_wild extract_features entry_row entry_failure
    fileEntryWild
  by_cases hw : endswith file ".wav"
  · simp only [hw, if_true]
    cases hc : extract_features_core lib (pjoin folder file) with
    | ok d =>
        have hne : d ≠ [] := extract_features_core_ok_ne_nil _ _ _ hc
        simp [hne]
    | error e => simp
  · simp [hw]

/-- A fold whose step appends rows/log lines and adds to the progress
count accumulates the pointwise contributions in order. -/
theorem foldl_runstate_delta {α : Type} (g : RunState → α → RunState)
    (r : α → List Row) (l : α → List String) (n : α → ℕ)
    (hg : ∀ st x, g st x =
      ⟨st.rows ++ r x, st.log ++ l x, st.progress + n x⟩) :
    ∀ (xs : List α) (st : RunState),
      xs.foldl g st =
        ⟨st.rows ++ xs.flatMap r, st.log ++ xs.flatMap l,
         st.progress + (xs.map n).sum⟩ := by
  intro xs
  induction xs with
  | nil => intro st; simp
  | cons x xs ih =>
      intro st
      rw [List.foldl_cons, hg, ih]
      simp [List.append_assoc, Nat.add_assoc]

theorem flatMap_if_toList {α β γ : Type} (p : α → Bool) (e : α → β)
    (q : β → Option γ) :
    ∀ xs : List α,
      xs.flatMap (fun x => if p x then (q (e x)).toList else []) =
        ((xs.filter p).map e).filterMap q := by
  intro xs
  induction xs with
  | nil => simp
  | cons x xs ih =>
      by_cases h : p x
      · cases hq : q (e x) <;> simp [h, ih, hq]
      · simp [h, ih]

theorem flatMap_if_list {α β γ : Type} (p : α → Bool) (e : α → β)
    (l : β → List γ) :
    ∀ xs : List α,
      xs.flatMap (fun x => if p x then l (e x) else []) =
        ((xs.filter p).map e).flatMap l := by
  intro xs
  induction xs with
  | nil => simp
  | cons x xs ih => by_cases h : p x <;> simp [h, ih]

theorem sum_map_ite_one {α : Type} (p : α → Bool) :
    ∀ xs : List α,
      (xs.map (fun x => if p x then 1 else 0)).sum =
        (xs.filter p).length := by
  intro xs
  induction xs with
  | nil => simp
  | cons x xs ih => by_cases h : p x <;> simp [h, ih, Nat.add_comm]

theorem length_flatMap_eq {α β : Type} (f : α → List β) :
    ∀ l : List α,
      (l.flatMap f).length = (l.map (fun a => (f a).length)).sum := by
  intro l
  induction l with
  | nil => simp
  | cons x xs ih => simp [ih]

/-- Folding the per-file step over one directory listing appends the
rows of the successful `.wav` entries, the log lines of the failing
ones, and one progress tick per `.wav` entry. -/
theorem foldl_dir_norm (lib : AudioLib) (folder split label : String)
    (code : ℕ) (files : List String) (st : RunState) :
    files.foldl (process_file_for_norm lib folder split label code) st =
      ⟨st.rows ++ (((files.filter (fun f => endswith f ".wav")).map
          (fileEntryNorm folder split label code)).filterMap (entry_row lib)),
       st.log ++ (((files.filter (fun f => endswith f ".wav")).map
          (fileEntryNorm folder split label code)).flatMap (entry_failure lib)),
       st.progress + (files.filter (fun f => endswith f ".wav")).length⟩ := by
  have hg : ∀ (st : RunState) (f : String),
      process_file_for_norm lib folder split label code st f =
        ⟨st.rows ++ (if endswith f ".wav" then
            (entry_row lib (fileEntryNorm folder split label code f)).toList
          else []),
         st.log ++ (if endswith f ".wav" then
            entry_failure lib (fileEntryNorm folder split label code f)
          else []),
         st.progress + (if endswith f ".wav" then 1 else 0)⟩ := by
    intro st f
    rw [process_file_for_norm_step]
    by_cases hw : endswith f ".wav" <;> simp [hw]
  rw [foldl_runstate_delta _ _ _ _ hg files st,
    flatMap_if_toList, flatMap_if_list, sum_map_ite_one]

theorem foldl_dir_wild (lib : AudioLib) (folder label : String)
    (code : ℕ) (files : List String) (st : RunState) :
    files.foldl (process_file_wild lib folder label code) st =
      ⟨st.rows ++ (((files.filter (fun f => endswith f ".wav")).map
          (fileEntryWild folder label code)).filterMap (entry_row lib)),
       st.log ++ (((files.filter (fun f => endswith f ".wav")).map
          (fileEntryWild folder label code)).flatMap (entry_failure lib)),
       st.progress + (files.filter (fun f => endswith f ".wav")).length⟩ := by
  have hg : ∀ (st : RunState) (f : String),
      process_file_wild lib folder label code st f =
        ⟨st.rows ++ (if endswith f ".wav" then
            (entry_row lib (fileEntryWild folder label code f)).toList
          else []),
         st.log ++ (if endswith f ".wav" then
            entry_failure lib (fileEntryWild folder label code f)
          else []),
         st.progress + (if endswith f ".wav" then 1 else 0)⟩ := by
    intro st f
    rw [process_file_wild_step]
    by_cases hw : endswith f ".wav" <;> simp [hw]
  rw [foldl_runstate_delta _ _ _ _ hg files st,
    flatMap_if_toList, flatMap_if_list, sum_map_ite_one]

/-- Folding over the label set within one split accumulates exactly
that split's entries. -/
theorem foldl_labels_norm (lib : AudioLib) (fs : FS)
    (base_dir split : String) (labels : List (String × ℕ))
    (st : RunState) :
    labels.foldl (fun st lab =>
      if fs.pathExists (pjoin (pjoin base_dir split) lab.1) then
        (fs.listdir (pjoin (pjoin base_dir split) lab.1)).foldl
          (process_file_for_norm lib (pjoin (pjoin base_dir split) lab.1)
            split lab.1 lab.2) st
      else st) st =
      ⟨st.rows ++
         (splitEntries fs base_dir labels split).filterMap (entry_row lib),
       st.log ++
         (splitEntries fs base_dir labels split).flatMap (entry_failure lib),
       st.progress + (splitEntries fs base_dir labels split).length⟩ := by
  have hg : ∀ (st : RunState) (lab : String × ℕ),
      (if fs.pathExists (pjoin (pjoin base_dir split) lab.1) then
        (fs.listdir (pjoin (pjoin base_dir split) lab.1)).foldl
          (process_file_for_norm lib (pjoin (pjoin base_dir split) lab.1)
            split lab.1 lab.2) st
      else st) =
        ⟨st.rows ++
           (labEntriesNorm fs base_dir split lab).filterMap (entry_row lib),
         st.log ++
           (labEntriesNorm fs base_dir split lab).flatMap (entry_failure lib),
         st.progress + (labEntriesNorm fs base_dir split lab).length⟩ := by
    intro st lab
    by_cases hex : fs.pathExists (pjoin (pjoin base_dir split) lab.1)
    · rw [if_pos hex, foldl_dir_norm]
      simp [labEntriesNorm, hex]
    · rw [if_neg hex]
      simp [labEntriesNorm, hex]
  rw [foldl_runstate_delta _ _ _ _ hg labels st]
  unfold splitEntries
  rw [List.filterMap_flatMap, List.flatMap_assoc, length_flatMap_eq]

/-- The for-norm batch: its final state accumulates, over the full
traversal, one row per successful entry and one log line per failing
entry, and ticks progress once per enumerated entry. -/
theorem process_audio_files_for_norm_run (lib : AudioLib) (fs : FS)
    (base_dir : String) (splits : List String)
    (labels : List (String × ℕ)) (log0 : List String) :
    (process_audio_files_for_norm lib fs base_dir splits labels log0).1 =
      ⟨(walk_split fs base_dir splits labels).filterMap (entry_row lib),
       log0 ++
         (walk_split fs base_dir splits labels).flatMap (entry_failure lib),
       (walk_split fs base_dir splits labels).length⟩ := by
  have hg : ∀ (st : RunState) (split : String),
      (labels.foldl (fun st lab =>
        let folder := pjoin (pjoin base_dir split) lab.1
        if fs.pathExists folder then
          (fs.listdir folder).foldl
            (process_file_for_norm lib folder split lab.1 lab.2) st
        else st) st) =
        ⟨st.rows ++
           (splitEntries fs base_dir labels split).filterMap (entry_row lib),
         st.log ++
           (splitEntries fs base_dir labels split).flatMap (entry_failure lib),
         st.progress + (splitEntries fs base_dir labels split).length⟩ :=
    fun st split => foldl_labels_norm lib fs base_dir split labels st
  unfold process_audio_files_for_norm
  simp only
  rw [foldl_runstate_delta _ _ _ _ hg splits ⟨[], log0, 0⟩]
  unfold walk_split
  rw [List.filterMap_flatMap, List.flatMap_assoc, length_flatMap_eq]
  simp

/-- The release-in-the-wild batch, characterized the same way over the
flat traversal. -/
theorem process_audio_files_release_in_wild_run (lib : AudioLib) (fs : FS)
    (base_dir : String) (labels : List (String × ℕ)) (log0 : List String) :
    (process_audio_files_release_in_wild lib fs base_dir labels log0).1 =
      ⟨(walk_flat fs base_dir labels).filterMap (entry_row lib),
       log0 ++ (walk_flat fs base_dir labels).flatMap (entry_failure lib),
       (walk_flat fs base_dir labels).length⟩ := by
  have hg : ∀ (st : RunState) (lab : String × ℕ),
      ((let folder := pjoin base_dir lab.1
        if fs.pathExists folder then
          (fs.listdir folder).foldl
            (process_file_wild lib folder lab.1 lab.2) st
        else st) : RunState) =
        ⟨st.rows ++
           (labEntriesWild fs base_dir lab).filterMap (entry_row lib),
         st.log ++
           (labEntriesWild fs base_dir lab).flatMap (entry_failure lib),
         st.progress + (labEntriesWild fs base_dir lab).length⟩ := by
    intro st lab
    by_cases hex : fs.pathExists (pjoin base_dir lab.1)
    · show (if fs.pathExists (pjoin base_dir lab.1) then _ else st) = _
      rw [if_pos hex, foldl_dir_wild]
      simp [labEntriesWild, hex]
    · show (if fs.pathExists (pjoin base_dir lab.1) then _ else st) = _
      rw [if_neg hex]
      simp [labEntriesWild, hex]
  unfold process_audio_files_release_in_wild
  simp only
  rw [foldl_runstate_delta _ _ _ _ hg labels ⟨[], log0, 0⟩]
  unfold walk_flat
  rw [List.filterMap_flatMap, List.flatMap_assoc, length_flatMap_eq]
  simp

/-- The mean of a non-empty all-finite series is finite. -/
theorem npMean_finite (xs : List Val) (hne : xs ≠ [])
    (hfin : ∀ v ∈ xs, v.isFinite = true) :
    (npMean xs).isFinite = true := by
  have hmem : ∀ v : Val, v.isFinite = false → xs.contains v = false := by
    intro v hv
    by_contra h
    rw [Bool.not_eq_false] at h
    have hm : v ∈ xs := by simpa using h
    rw [hfin v hm] at hv
    cases hv
  unfold npMean
  rw [if_neg hne, hmem Val.nan rfl, hmem (Val.inf true) rfl,
    hmem (Val.inf false) rfl]
  simp [Val.isFinite]

/-- Claim C1: for an enumerated directory entry whose name ends in the
audio extension, the per-file step appends exactly one row and no
failure line when extraction succeeds, exactly one failure line and no
row when it fails, and a non-matching entry changes nothing. -/
theorem claim_C1 (lib : AudioLib) (folder split label : String)
    (code : ℕ) (st : RunState) (file : String) :
    (endswith file ".wav" = false →
      process_file_for_norm lib folder split label code st file = st) ∧
    (endswith file ".wav" = true →
      ((∃ d, extract_features_core lib (pjoin folder file) = .ok d ∧
          process_file_for_norm lib folder split label code st file =
            { rows := st.rows ++ [mkRowForNorm d file split label code],
              log := st.log, progress := st.progress + 1 }) ∨
       (∃ e, extract_features_core lib (pjoin folder file) = .error e ∧
          process_file_for_norm lib folder split label code st file =
            { rows := st.rows,
              log := st.log ++
                ["Error processing " ++ pjoin folder file ++ ": " ++ e],
              progress := st.progress + 1 }))) := by
  constructor
  · intro hw
    unfold process_file_for_norm
    simp [hw]
  · intro hw
    cases hc : extract_features_core lib (pjoin folder file) with
    | ok d =>
        left
        refine ⟨d, rfl, ?_⟩
        have hne : d ≠ [] := extract_features_core_ok_ne_nil _ _ _ hc
        unfold process_file_for_norm extract_features
        rw [hc]
        simp [hw, hne]
    | error e =>
        right
        refine ⟨e, rfl, ?_⟩
        unfold process_file_for_norm extract_features
        rw [hc]
        simp [hw]

/-- Concrete instance of the C1 case split: a non-audio name changes
nothing, and a `.wav` name under `constLib` appends exactly one row
with no failure line. -/
theorem claim_C1_witness :
    process_file_for_norm constLib "b/training/fake" "training" "fake" 0
        ⟨[], [], 0⟩ "x.txt" = ⟨[], [], 0⟩ ∧
    ((∃ d, extract_features_core constLib
          (pjoin "b/training/fake" "a.wav") = .ok d ∧
        process_file_for_norm constLib "b/training/fake" "training" "fake" 0
            ⟨[], [], 0⟩ "a.wav" =
          { rows := [] ++ [mkRowForNorm d "a.wav" "training" "fake" 0],
            log := [], progress := 0 + 1 }) ∨
     (∃ e, extract_features_core constLib
          (pjoin "b/training/fake" "a.wav") = .error e ∧
        process_file_for_norm constLib "b/training/fake" "training" "fake" 0
            ⟨[], [], 0⟩ "a.wav" =
          { rows := [],
            log := [] ++
              ["Error processing " ++ pjoin "b/training/fake" "a.wav" ++
                ": " ++ e],
            progress := 0 + 1 })) :=
  ⟨(claim_C1 constLib "b/training/fake" "training" "fake" 0
      ⟨[], [], 0⟩ "x.txt").1 (by decide),
   (claim_C1 constLib "b/training/fake" "training" "fake" 0
      ⟨[], [], 0⟩ "a.wav").2 (by decide)⟩

/-- Claim C2: a successful extraction has exactly the 26 canonical keys
(no more, no fewer, in the canonical order), and for each i in 1..20
the entry at key `mfcc i` is the mean of coefficient row `i-1` of the
20-row cepstral decomposition, in ascending index order. -/
theorem claim_C2 (lib : AudioLib) (fp : String) (d : FeatureDict)
    (h : extract_features_core lib fp = .ok d) :
    d.map Prod.fst = CANONICAL_KEYS ∧
    ∃ y sr mfccs, lib.load fp = .ok (y, sr) ∧ lib.mfcc y sr = .ok mfccs ∧
      ∀ i, i < 20 →
        d[6 + i]? = some ("mfcc" ++ toString (i + 1), npMean (mfccs i)) := by
  refine ⟨extract_features_core_keys lib fp d h, ?_⟩
  obtain ⟨y, sr, c, r, sc, sb, ro, z, mf, hl, _, _, _, _, _, _, hm, hd⟩ :=
    extract_features_core_ok lib fp d h
  refine ⟨y, sr, mf, hl, hm, ?_⟩
  intro i hi
  subst hd
  rw [List.getElem?_append_right (by simp)]
  have h6 : 6 + i - 6 = i := by omega
  simp only [List.length_cons, List.length_nil, h6, List.getElem?_map,
    List.getElem?_range hi, Option.map_some']

/-- Concrete instance of C2 at `constLib`. -/
theorem claim_C2_witness :
    constDict.map Prod.fst = CANONICAL_KEYS ∧
    ∃ y sr mfccs, constLib.load "a.wav" = .ok (y, sr) ∧
      constLib.mfcc y sr = .ok mfccs ∧
      ∀ i, i < 20 →
        constDict[6 + i]? =
          some ("mfcc" ++ toString (i + 1), npMean (mfccs i)) :=
  claim_C2 constLib "a.wav" constDict rfl

/-- Claim C3: on every valid non-empty audio input the extractor
succeeds with a vector having exactly the canonical key set and only
finite values (no NaN, no Infinity). -/
theorem claim_C3 (lib : AudioLib) (fp : String)
    (h : ValidInput lib fp) :
    ∃ d, extract_features_core lib fp = .ok d ∧
      d.map Prod.fst = CANONICAL_KEYS ∧
      ∀ kv ∈ d, kv.2.isFinite = true := by
  obtain ⟨y, sr, hl, _, ⟨c, hc, hcne, hcf⟩, ⟨r, hr, hrne, hrf⟩,
    ⟨sc, hsc, hscne, hscf⟩, ⟨sb, hsb, hsbne, hsbf⟩, ⟨ro, hro, hrone, hrof⟩,
    ⟨z, hz, hzne, hzf⟩, mf, hmf, hmfg⟩ := h
  have hok : extract_features_core lib fp =
      .ok ([("chroma_stft", npMean c), ("rms", npMean r),
            ("spectral_centroid", npMean sc),
            ("spectral_bandwidth", npMean sb),
            ("rolloff", npMean ro),
            ("zero_crossing_rate", npMean z)]
           ++ (List.range 20).map
                (fun i => ("mfcc" ++ toString (i + 1), npMean (mf i)))) := by
    unfold extract_features_core
    rw [hl]; dsimp only; rw [hc]; dsimp only; rw [hr]; dsimp only
    rw [hsc]; dsimp only; rw [hsb]; dsimp only; rw [hro]; dsimp only
    rw [hz]; dsimp only; rw [hmf]
  refine ⟨_, hok, extract_features_core_keys lib fp _ hok, ?_⟩
  intro kv hkv
  rcases List.mem_append.1 hkv with h6 | hmap
  · simp only [List.mem_cons, List.not_mem_nil, or_false] at h6
    rcases h6 with h | h | h | h | h | h <;> subst h
    · exact npMean_finite c hcne hcf
    · exact npMean_finite r hrne hrf
    · exact npMean_finite sc hscne hscf
    · exact npMean_finite sb hsbne hsbf
    · exact npMean_finite ro hrone hrof
    · exact npMean_finite z hzne hzf
  · obtain ⟨i, hi, hkv⟩ := List.mem_map.1 hmap
    subst hkv
    have hi20 : i < 20 := List.mem_range.1 hi
    exact npMean_finite (mf i) (hmfg i hi20).1 (hmfg i hi20).2

/-- Concrete instance of C3 at `constLib`. -/
theorem claim_C3_witness :
    ∃ d, extract_features_core constLib "a.wav" = .ok d ∧
      d.map Prod.fst = CANONICAL_KEYS ∧
      ∀ kv ∈ d, kv.2.isFinite = true :=
  claim_C3 constLib "a.wav"
    ⟨[Val.finite 1], 16000, rfl, by decide,
     ⟨[Val.finite 1], rfl, by decide, by decide⟩,
     ⟨[Val.finite 1], rfl, by decide, by decide⟩,
     ⟨[Val.finite 1], rfl, by decide, by decide⟩,
     ⟨[Val.finite 1], rfl, by decide, by decide⟩,
     ⟨[Val.finite 1], rfl, by decide, by decide⟩,
     ⟨[Val.finite 1], rfl, by decide, by decide⟩,
     fun _ => [Val.finite 1], rfl,
     fun _ _ => ⟨List.cons_ne_nil _ _, fun v hv => by
       rw [List.mem_singleton] at hv; subst hv; rfl⟩⟩

/-- Claim C4 counterexample: on a zero-length waveform whose library
calls return degenerate results with only warnings (the behaviour the
notebook's own recorded run shows for a length-0 input), the extractor
does NOT fail: it returns a vector whose 26 values are all NaN and
appends nothing to the error log, so the file yields a FeatureRow, not
a FailureRecord. -/
theorem claim_C4_counterexample :
    zeroLenLib.load "zero.wav" = .ok ([], 16000) ∧
    (extract_features zeroLenLib "zero.wav" []).1 =
      some (CANONICAL_KEYS.map (fun k => (k, Val.nan))) ∧
    (extract_features zeroLenLib "zero.wav" []).2 = [] :=
  ⟨rfl, by decide, rfl⟩

/-- Claim C4 as amended: on a zero-length waveform, when the library
calls return (raising no exception), `extract_features` returns a
FeatureVector with the canonical 26 keys — possibly NaN-valued — and
records no failure; a FailureRecord arises only from a raised
exception. -/
theorem claim_C4_amended (lib : AudioLib) (fp : String) (sr : ℕ)
    (log : List String) (hload : lib.load fp = .ok ([], sr))
    (hnr : NoRaise lib [] sr) :
    ∃ d, extract_features lib fp log = (some d, log) ∧
      d.map Prod.fst = CANONICAL_KEYS := by
  obtain ⟨⟨c, hc⟩, ⟨r, hr⟩, ⟨sc, hsc⟩, ⟨sb, hsb⟩, ⟨ro, hro⟩, ⟨z, hz⟩,
    mf, hmf⟩ := hnr
  have hok : extract_features_core lib fp =
      .ok ([("chroma_stft", npMean c), ("rms", npMean r),
            ("spectral_centroid", npMean sc),
            ("spectral_bandwidth", npMean sb),
            ("rolloff", npMean ro),
            ("zero_crossing_rate", npMean z)]
           ++ (List.range 20).map
                (fun i => ("mfcc" ++ toString (i + 1), npMean (mf i)))) := by
    unfold extract_features_core
    rw [hload]; dsimp only; rw [hc]; dsimp only; rw [hr]; dsimp only
    rw [hsc]; dsimp only; rw [hsb]; dsimp only; rw [hro]; dsimp only
    rw [hz]; dsimp only; rw [hmf]
  refine ⟨_, ?_, extract_features_core_keys lib fp _ hok⟩
  unfold extract_features
  rw [hok]

/-- Concrete instance of the amended C4 at `zeroLenLib`. -/
theorem claim_C4_amended_witness :
    ∃ d, extract_features zeroLenLib "zero.wav" [] = (some d, []) ∧
      d.map Prod.fst = CANONICAL_KEYS :=
  claim_C4_amended zeroLenLib "zero.wav" 16000 [] rfl
    ⟨⟨[], rfl⟩, ⟨[], rfl⟩, ⟨[], rfl⟩, ⟨[], rfl⟩, ⟨[], rfl⟩, ⟨[], rfl⟩,
     fun _ => [], rfl⟩

/-- Claim C5: neither batch ever aborts on a single-file failure.  For
every library and file-system behaviour, each run completes with a
fully determined final state in which every enumerated entry was
attempted (one progress tick each), each load/extraction failure
contributed exactly its log line to the failure log, and the result is
the accumulated row sequence of the successful entries in traversal
order. -/
theorem claim_C5 (lib : AudioLib) (fs : FS) (base_dir : String)
    (splits : List String) (labels : List (String × ℕ))
    (log0 : List String) :
    (process_audio_files_for_norm lib fs base_dir splits labels log0).1 =
      ⟨(walk_split fs base_dir splits labels).filterMap (entry_row lib),
       log0 ++
         (walk_split fs base_dir splits labels).flatMap (entry_failure lib),
       (walk_split fs base_dir splits labels).length⟩ ∧
    (process_audio_files_release_in_wild lib fs base_dir labels log0).1 =
      ⟨(walk_flat fs base_dir labels).filterMap (entry_row lib),
       log0 ++ (walk_flat fs base_dir labels).flatMap (entry_failure lib),
       (walk_flat fs base_dir labels).length⟩ :=
  ⟨process_audio_files_for_norm_run lib fs base_dir splits labels log0,
   process_audio_files_release_in_wild_run lib fs base_dir labels log0⟩

theorem labEntriesNorm_length (fs : FS) (base_dir split : String)
    (lab : String × ℕ) :
    (labEntriesNorm fs base_dir split lab).length =
      countCell fs (pjoin (pjoin base_dir split) lab.1) := by
  unfold labEntriesNorm countCell
  by_cases hex : fs.pathExists (pjoin (pjoin base_dir split) lab.1) <;>
    simp [hex]

theorem labEntriesWild_length (fs : FS) (base_dir : String)
    (lab : String × ℕ) :
    (labEntriesWild fs base_dir lab).length =
      countCell fs (pjoin base_dir lab.1) := by
  unfold labEntriesWild countCell
  by_cases hex : fs.pathExists (pjoin base_dir lab.1) <;> simp [hex]

theorem walk_split_length (fs : FS) (base_dir : String)
    (splits : List String) (labels : List (String × ℕ)) :
    (walk_split fs base_dir splits labels).length =
      (splits.map (fun split =>
        (labels.map (fun lab =>
          countCell fs (pjoin (pjoin base_dir split) lab.1))).sum)).sum := by
  unfold walk_split splitEntries
  simp only [length_flatMap_eq, labEntriesNorm_length]

theorem walk_flat_length (fs : FS) (base_dir : String)
    (labels : List (String × ℕ)) :
    (walk_flat fs base_dir labels).length =
      (labels.map (fun lab => countCell fs (pjoin base_dir lab.1))).sum := by
  unfold walk_flat
  simp only [length_flatMap_eq, labEntriesWild_length]

/-- Claim C6: in both modes the counting operation returns the
per-cell `countCell` table, its grand total is the sum of those cells,
the total equals the number of entries the traversal yields, and an
absent directory contributes 0 without an error. -/
theorem claim_C6 (fs : FS) (base_dir : String) (s : String)
    (ss : List String) (labels : List (String × ℕ)) :
    ((count_files_in_dataset fs base_dir (some (s :: ss)) labels).1 =
       FileCounts.structured ((s :: ss).map (fun split =>
         (split, labels.map (fun lab =>
           (lab.1, countCell fs (pjoin (pjoin base_dir split) lab.1)))))) ∧
     (count_files_in_dataset fs base_dir (some (s :: ss)) labels).2 =
       ((s :: ss).map (fun split =>
         (labels.map (fun lab =>
           countCell fs (pjoin (pjoin base_dir split) lab.1))).sum)).sum ∧
     (count_files_in_dataset fs base_dir (some (s :: ss)) labels).2 =
       (walk_split fs base_dir (s :: ss) labels).length) ∧
    ((count_files_in_dataset fs base_dir none labels).1 =
       FileCounts.flat (labels.map (fun lab =>
         (lab.1, countCell fs (pjoin base_dir lab.1)))) ∧
     (count_files_in_dataset fs base_dir none labels).2 =
       (labels.map (fun lab => countCell fs (pjoin base_dir lab.1))).sum ∧
     (count_files_in_dataset fs base_dir none labels).2 =
       (walk_flat fs base_dir labels).length) ∧
    (∀ folder, fs.pathExists folder = false → countCell fs folder = 0) := by
  refine ⟨⟨rfl, ?_, ?_⟩, ⟨rfl, ?_, ?_⟩, ?_⟩
  · simp [count_files_in_dataset, List.map_map, Function.comp_def]
  · rw [walk_split_length]
    simp [count_files_in_dataset, List.map_map, Function.comp_def]
  · simp [count_files_in_dataset, List.map_map, Function.comp_def]
  · rw [walk_flat_length]
    simp [count_files_in_dataset, List.map_map, Function.comp_def]
  · intro folder h
    unfold countCell
    simp [h]

/-- Concrete instance of C6: an absent directory counts 0, and the
grand total matches the traversal length on a small layout. -/
theorem claim_C6_witness :
    countCell fsTxt "nope" = 0 ∧
    (count_files_in_dataset fsTxt "b" (some ["training"])
        [("fake", 0), ("real", 1)]).2 =
      (walk_split fsTxt "b" ["training"] [("fake", 0), ("real", 1)]).length :=
  ⟨(claim_C6 fsTxt "b" "training" [] [("fake", 0), ("real", 1)]).2.2 "nope"
     (by decide),
   (claim_C6 fsTxt "b" "training" [] [("fake", 0), ("real", 1)]).1.2.2⟩

theorem sum_flatMap {α : Type} (f : α → List ℕ) :
    ∀ l : List α, (l.flatMap f).sum = (l.map (fun a => (f a).sum)).sum := by
  intro l
  induction l with
  | nil => simp
  | cons x xs ih => simp [ih]

theorem sum_filterMap_ite {α : Type} (c : α → Bool) (n : α → ℕ) :
    ∀ l : List α,
      (l.filterMap (fun a => if c a then some (n a) else none)).sum =
        (l.map (fun a => if c a then n a else 0)).sum := by
  intro l
  induction l with
  | nil => simp
  | cons x xs ih => by_cases h : c x <;> simp [h, ih]

/-- Claim C7 counterexample: with one existing directory holding one
non-`.wav` file, the batch's precomputed progress total is 1 while the
counting operation's total is 0 — the precompute does not apply the
audio-extension filter, so it is not the counting operation's
result. -/
theorem claim_C7_counterexample :
    (process_audio_files_for_norm constLib fsTxt "b" ["training"]
        [("fake", 0)] []).2 = 1 ∧
    (count_files_in_dataset fsTxt "b" (some ["training"])
        [("fake", 0)]).2 = 0 := by
  constructor <;> decide

/-- Claim C7 as amended: the precomputed progress total counts every
entry of the existing split/label directories without filtering by the
audio extension; it coincides with the counting operation's total
exactly when every listed file in those directories ends in `.wav`. -/
theorem claim_C7_amended (lib : AudioLib) (fs : FS) (base_dir : String)
    (s : String) (ss : List String) (labels : List (String × ℕ))
    (log0 : List String)
    (hwav1 : ∀ split ∈ s :: ss, ∀ lab ∈ labels,
      ∀ f ∈ fs.listdir (pjoin (pjoin base_dir split) lab.1),
        endswith f ".wav" = true)
    (hwav2 : ∀ lab ∈ labels, ∀ f ∈ fs.listdir (pjoin base_dir lab.1),
        endswith f ".wav" = true) :
    (process_audio_files_for_norm lib fs base_dir (s :: ss) labels
        log0).2 =
      (count_files_in_dataset fs base_dir (some (s :: ss)) labels).2 ∧
    (process_audio_files_release_in_wild lib fs base_dir labels log0).2 =
      (count_files_in_dataset fs base_dir none labels).2 := by
  have hcell1 : ∀ split ∈ s :: ss, ∀ lab ∈ labels,
      (if fs.pathExists (pjoin (pjoin base_dir split) lab.1) then
         (fs.listdir (pjoin (pjoin base_dir split) lab.1)).length else 0) =
      countCell fs (pjoin (pjoin base_dir split) lab.1) := by
    intro split hs lab hl
    unfold countCell
    by_cases hex : fs.pathExists (pjoin (pjoin base_dir split) lab.1)
    · rw [if_pos hex, if_pos hex,
        List.filter_eq_self.mpr (hwav1 split hs lab hl)]
    · rw [if_neg hex, if_neg hex]
  have hcell2 : ∀ lab ∈ labels,
      (if fs.pathExists (pjoin base_dir lab.1) then
         (fs.listdir (pjoin base_dir lab.1)).length else 0) =
      countCell fs (pjoin base_dir lab.1) := by
    intro lab hl
    unfold countCell
    by_cases hex : fs.pathExists (pjoin base_dir lab.1)
    · rw [if_pos hex, if_pos hex, List.filter_eq_self.mpr (hwav2 lab hl)]
    · rw [if_neg hex, if_neg hex]
  constructor
  · have hsplit : ∀ split ∈ s :: ss,
        (labels.filterMap (fun lab =>
          if fs.pathExists (pjoin (pjoin base_dir split) lab.1) then
            some (fs.listdir (pjoin (pjoin base_dir split) lab.1)).length
          else none)).sum =
        (labels.map (fun lab =>
          countCell fs (pjoin (pjoin base_dir split) lab.1))).sum := by
      intro split hs
      rw [sum_filterMap_ite]
      exact congrArg List.sum
        (List.map_congr_left (fun lab hl => hcell1 split hs lab hl))
    simp only [process_audio_files_for_norm, count_files_in_dataset]
    rw [sum_flatMap]
    simp only [List.map_map, Function.comp_def]
    exact congrArg List.sum (List.map_congr_left hsplit)
  · simp only [process_audio_files_release_in_wild,
      count_files_in_dataset]
    rw [sum_filterMap_ite]
    simp only [List.map_map, Function.comp_def]
    exact congrArg List.sum (List.map_congr_left hcell2)

/-- Concrete instance of the amended C7: on an all-`.wav` layout the
progress total does match the counting total, in both modes. -/
theorem claim_C7_amended_witness :
    (process_audio_files_for_norm constLib fsWav "b" ["training"]
        [("fake", 0)] []).2 =
      (count_files_in_dataset fsWav "b" (some ["training"])
        [("fake", 0)]).2 ∧
    (process_audio_files_release_in_wild constLib fsWav "b"
        [("fake", 0)] []).2 =
      (count_files_in_dataset fsWav "b" none [("fake", 0)]).2 :=
  claim_C7_amended constLib fsWav "b" "training" [] [("fake", 0)] []
    (by decide) (by decide)

theorem mkRowForNorm_keys (features : FeatureDict)
    (file split label : String) (code : ℕ) :
    (mkRowForNorm features file split label code).map Prod.fst =
      features.map Prod.fst ++ ["filename", "split", "label", "LABEL"] := by
  unfold mkRowForNorm
  simp [List.map_map, Function.comp_def]

theorem mkRowWild_keys (features : FeatureDict)
    (file label : String) (code : ℕ) :
    (mkRowWild features file label code).map Prod.fst =
      features.map Prod.fst ++ ["filename", "label", "LABEL"] := by
  unfold mkRowWild
  simp [List.map_map, Function.comp_def]

theorem entry_row_keys_norm (lib : AudioLib) (e : DatasetEntry)
    (sp : String) (hsp : e.split = some sp) (r : Row)
    (hr : entry_row lib e = some r) :
    r.map Prod.fst =
      CANONICAL_KEYS ++ ["filename", "split", "label", "LABEL"] := by
  unfold entry_row at hr
  cases hc : extract_features_core lib e.file_path with
  | error er => rw [hc] at hr; cases hr
  | ok features =>
      rw [hc] at hr
      dsimp only at hr
      have hne : features ≠ [] := extract_features_core_ok_ne_nil _ _ _ hc
      rw [if_pos hne, hsp] at hr
      simp only [Option.some.injEq] at hr
      subst hr
      rw [mkRowForNorm_keys, extract_features_core_keys lib e.file_path features hc]

theorem entry_row_keys_wild (lib : AudioLib) (e : DatasetEntry)
    (hsp : e.split = none) (r : Row)
    (hr : entry_row lib e = some r) :
    r.map Prod.fst = CANONICAL_KEYS ++ ["filename", "label", "LABEL"] := by
  unfold entry_row at hr
  cases hc : extract_features_core lib e.file_path with
  | error er => rw [hc] at hr; cases hr
  | ok features =>
      rw [hc] at hr
      dsimp only at hr
      have hne : features ≠ [] := extract_features_core_ok_ne_nil _ _ _ hc
      rw [if_pos hne, hsp] at hr
      simp only [Option.some.injEq] at hr
      subst hr
      rw [mkRowWild_keys, extract_features_core_keys lib e.file_path features hc]

theorem walk_split_split_eq (fs : FS) (base_dir : String)
    (splits : List String) (labels : List (String × ℕ)) :
    ∀ e ∈ walk_split fs base_dir splits labels, ∃ sp, e.split = some sp := by
  intro e he
  obtain ⟨split, _, he⟩ := List.mem_flatMap.1 he
  obtain ⟨lab, _, he⟩ := List.mem_flatMap.1 he
  unfold labEntriesNorm at he
  by_cases hex : fs.pathExists (pjoin (pjoin base_dir split) lab.1)
  · rw [if_pos hex] at he
    obtain ⟨f, _, he⟩ := List.mem_map.1 he
    subst he
    exact ⟨split, rfl⟩
  · rw [if_neg hex] at he
    cases he

theorem walk_flat_split_eq (fs : FS) (base_dir : String)
    (labels : List (String × ℕ)) :
    ∀ e ∈ walk_flat fs base_dir labels, e.split = none := by
  intro e he
  obtain ⟨lab, _, he⟩ := List.mem_flatMap.1 he
  unfold labEntriesWild at he
  by_cases hex : fs.pathExists (pjoin base_dir lab.1)
  · rw [if_pos hex] at he
    obtain ⟨f, _, he⟩ := List.mem_map.1 he
    subst he
    rfl
  · rw [if_neg hex] at he
    cases he

/-- If every row has the same key list `K`, the inferred column order
is `K`. -/
theorem df_columns_const (K : List String) :
    ∀ rows : List Row, rows ≠ [] →
      (∀ r ∈ rows, r.map Prod.fst = K) → df_columns rows = K := by
  have step : ∀ rest : List Row, (∀ r ∈ rest, r.map Prod.fst = K) →
      rest.foldl (fun cols row =>
        cols ++ ((row.map Prod.fst).filter (fun k => !(cols.contains k)))) K
        = K := by
    intro rest
    induction rest with
    | nil => intro _; rfl
    | cons r rest ih =>
        intro h
        have hr := h r (by simp)
        simp only [List.foldl_cons, hr]
        have hfil : K.filter (fun k => !(K.contains k)) = [] := by
          rw [List.filter_eq_nil_iff]
          intro k hk
          simp [hk]
        rw [hfil, List.append_nil]
        exact ih (fun r hr => h r (by simp [hr]))
  intro rows hne hkeys
  match rows with
  | r :: rest =>
      have hr := hkeys r (by simp)
      unfold df_columns
      simp only [List.foldl_cons, hr, List.nil_append]
      have hfil : K.filter (fun k => !(List.contains [] k)) = K := by
        rw [List.filter_eq_self]
        intro k _
        simp [List.contains]
      rw [hfil]
      exact step rest (fun r hr => hkeys r (by simp [hr]))

theorem rows_keys_norm (lib : AudioLib) (fs : FS) (base_dir : String)
    (splits : List String) (labels : List (String × ℕ))
    (log0 : List String) :
    ∀ r ∈ (process_audio_files_for_norm lib fs base_dir splits labels
        log0).1.rows,
      r.map Prod.fst =
        CANONICAL_KEYS ++ ["filename", "split", "label", "LABEL"] := by
  intro r hr
  rw [process_audio_files_for_norm_run] at hr
  obtain ⟨e, he, her⟩ := List.mem_filterMap.1 hr
  obtain ⟨sp, hsp⟩ := walk_split_split_eq fs base_dir splits labels e he
  exact entry_row_keys_norm lib e sp hsp r her

theorem rows_keys_wild (lib : AudioLib) (fs : FS) (base_dir : String)
    (labels : List (String × ℕ)) (log0 : List String) :
    ∀ r ∈ (process_audio_files_release_in_wild lib fs base_dir labels
        log0).1.rows,
      r.map Prod.fst = CANONICAL_KEYS ++ ["filename", "label", "LABEL"] := by
  intro r hr
  rw [process_audio_files_release_in_wild_run] at hr
  obtain ⟨e, he, her⟩ := List.mem_filterMap.1 hr
  exact entry_row_keys_wild lib e (walk_flat_split_eq fs base_dir labels e he)
    r her

/-- Claim C8: every accumulated row carries its keys in the fixed
order — the 26 canonical feature keys, then `filename`, then `split`
(split dataset only), then `label`, then the label code — and hence
the exported table's column order is exactly that, whenever at least
one row exists. -/
theorem claim_C8 (lib : AudioLib) (fs : FS) (base_dir : String)
    (splits : List String) (labels : List (String × ℕ))
    (log0 : List String) :
    (∀ r ∈ (process_audio_files_for_norm lib fs base_dir splits labels
        log0).1.rows,
      r.map Prod.fst =
        CANONICAL_KEYS ++ ["filename", "split", "label", "LABEL"]) ∧
    ((process_audio_files_for_norm lib fs base_dir splits labels
        log0).1.rows ≠ [] →
      df_columns (process_audio_files_for_norm lib fs base_dir splits
          labels log0).1.rows =
        CANONICAL_KEYS ++ ["filename", "split", "label", "LABEL"]) ∧
    (∀ r ∈ (process_audio_files_release_in_wild lib fs base_dir labels
        log0).1.rows,
      r.map Prod.fst = CANONICAL_KEYS ++ ["filename", "label", "LABEL"]) ∧
    ((process_audio_files_release_in_wild lib fs base_dir labels
        log0).1.rows ≠ [] →
      df_columns (process_audio_files_release_in_wild lib fs base_dir
          labels log0).1.rows =
        CANONICAL_KEYS ++ ["filename", "label", "LABEL"]) :=
  ⟨rows_keys_norm lib fs base_dir splits labels log0,
   fun hne => df_columns_const _ _ hne
     (rows_keys_norm lib fs base_dir splits labels log0),
   rows_keys_wild lib fs base_dir labels log0,
   fun hne => df_columns_const _ _ hne
     (rows_keys_wild lib fs base_dir labels log0)⟩

/-- Concrete instance of C8: single-file runs in each mode produce a
non-empty table with the fixed column order. -/
theorem claim_C8_witness :
    df_columns (process_audio_files_for_norm constLib fsWav "b"
        ["training"] [("fake", 0)] []).1.rows =
      CANONICAL_KEYS ++ ["filename", "split", "label", "LABEL"] ∧
    df_columns (process_audio_files_release_in_wild constLib fsFlat "b"
        [("fake", 0)] []).1.rows =
      CANONICAL_KEYS ++ ["filename", "label", "LABEL"] :=
  ⟨(claim_C8 constLib fsWav "b" ["training"] [("fake", 0)] []).2.1
     (by decide),
   (claim_C8 constLib fsFlat "b" ["training"] [("fake", 0)] []).2.2.2
     (by decide)⟩

theorem lookup_none_of_all_ne (path : String) :
    ∀ l : List (String × String), (∀ f ∈ l, f.1 ≠ path) →
      l.lookup path = none := by
  intro l
  induction l with
  | nil => intro _; rfl
  | cons x xs ih =>
      intro h
      obtain ⟨k, v⟩ := x
      have hk : k ≠ path := h (k, v) (by simp)
      have hb : (path == k) = false := by
        simp [beq_iff_eq]
        exact fun he => hk he.symm
      simp only [List.lookup, hb]
      exact ih (fun f hf => h f (List.mem_cons_of_mem _ hf))

theorem lookup_append_str (l l' : List (String × String)) (path : String)
    (h : l.lookup path = none) :
    (l ++ l').lookup path = l'.lookup path := by
  induction l with
  | nil => rfl
  | cons x xs ih =>
      obtain ⟨k, v⟩ := x
      simp only [List.cons_append, List.lookup] at h ⊢
      cases hx : (path == k) with
      | true => rw [hx] at h; exact Option.noConfusion h
      | false => rw [hx] at h; exact ih h

theorem filter_writeFile_self (files : List (String × String))
    (path c : String) :
    (writeFile files path c).filter (fun f => !(f.1 == path)) =
      files.filter (fun f => !(f.1 == path)) := by
  unfold writeFile
  rw [List.filter_append, List.filter_filter]
  simp

/-- Claim C9: the export is deterministic and idempotent — writing the
same row sequence to the same path twice leaves the file store exactly
as a single write does, and the stored bytes are exactly the
serialization of the rows (same header, row order, and formatting). -/
theorem claim_C9 (files : List (String × String)) (rows : List Row)
    (path : String) :
    to_csv_write (to_csv_write files rows path) rows path =
      to_csv_write files rows path ∧
    readFile (to_csv_write files rows path) path =
      some (df_to_csv rows) := by
  constructor
  · show writeFile (writeFile files path (df_to_csv rows)) path
        (df_to_csv rows) = writeFile files path (df_to_csv rows)
    conv_lhs => rw [writeFile]
    rw [filter_writeFile_self files path (df_to_csv rows)]
    rfl
  · show (writeFile files path (df_to_csv rows)).lookup path =
      some (df_to_csv rows)
    unfold writeFile
    rw [lookup_append_str]
    · simp [List.lookup]
    · refine lookup_none_of_all_ne path _ ?_
      intro f hf
      have := List.of_mem_filter hf
      simpa using this

/-- Claim C10: when every enumerated file fails (modelled by a library
on which every load raises), the accumulated row sequence is empty;
the DataFrame built from the empty row list has no columns, and the
exported CSV file exists but is a single empty line — no header row
naming the canonical columns, rather than a header-only table. -/
theorem claim_C10 :
    (process_audio_files_for_norm failLib fsWav "b" ["training"]
        [("fake", 0)] []).1.rows = [] ∧
    (process_audio_files_for_norm failLib fsWav "b" ["training"]
        [("fake", 0)] []).1.log ≠ [] ∧
    df_columns (process_audio_files_for_norm failLib fsWav "b" ["training"]
        [("fake", 0)] []).1.rows = [] ∧
    readFile (to_csv_write []
        (process_audio_files_for_norm failLib fsWav "b" ["training"]
          [("fake", 0)] []).1.rows "out.csv") "out.csv" = some "\n" :=
  ⟨by decide, by decide, by decide, by decide⟩
